import Mathlib

/-
Verification of the landlock stressor (stress-landlock.c).

The development shallowly embeds the pure control structure of the stressor:
machine integers become Nat with explicit reduction modulo 2^32 where the C
code stores into a uint32_t, syscall and I/O outcomes become explicit
environment/oracle parameters, and each C function of interest becomes a
Lean function over those parameters.  Theorems at the end settle the
specification claims against these definitions.
-/

/-- EXIT_SUCCESS as used by the stressor children. -/
def EXIT_SUCCESS : Nat := 0

/-- SHIM_LANDLOCK_ACCESS_FS_EXECUTE, bit 0. -/
def SHIM_LANDLOCK_ACCESS_FS_EXECUTE : Nat := 1 <<< 0

/-- SHIM_LANDLOCK_ACCESS_FS_WRITE_FILE, bit 1. -/
def SHIM_LANDLOCK_ACCESS_FS_WRITE_FILE : Nat := 1 <<< 1

/-- SHIM_LANDLOCK_ACCESS_FS_READ_FILE, bit 2. -/
def SHIM_LANDLOCK_ACCESS_FS_READ_FILE : Nat := 1 <<< 2

/-- SHIM_LANDLOCK_ACCESS_FS_READ_DIR, bit 3. -/
def SHIM_LANDLOCK_ACCESS_FS_READ_DIR : Nat := 1 <<< 3

/-- SHIM_LANDLOCK_ACCESS_FS_REMOVE_DIR, bit 4. -/
def SHIM_LANDLOCK_ACCESS_FS_REMOVE_DIR : Nat := 1 <<< 4

/-- SHIM_LANDLOCK_ACCESS_FS_REMOVE_FILE, bit 5. -/
def SHIM_LANDLOCK_ACCESS_FS_REMOVE_FILE : Nat := 1 <<< 5

/-- SHIM_LANDLOCK_ACCESS_FS_MAKE_CHAR, bit 6. -/
def SHIM_LANDLOCK_ACCESS_FS_MAKE_CHAR : Nat := 1 <<< 6

/-- SHIM_LANDLOCK_ACCESS_FS_MAKE_DIR, bit 7. -/
def SHIM_LANDLOCK_ACCESS_FS_MAKE_DIR : Nat := 1 <<< 7

/-- SHIM_LANDLOCK_ACCESS_FS_MAKE_REG, bit 8. -/
def SHIM_LANDLOCK_ACCESS_FS_MAKE_REG : Nat := 1 <<< 8

/-- SHIM_LANDLOCK_ACCESS_FS_MAKE_SOCK, bit 9. -/
def SHIM_LANDLOCK_ACCESS_FS_MAKE_SOCK : Nat := 1 <<< 9

/-- SHIM_LANDLOCK_ACCESS_FS_MAKE_FIFO, bit 10. -/
def SHIM_LANDLOCK_ACCESS_FS_MAKE_FIFO : Nat := 1 <<< 10

/-- SHIM_LANDLOCK_ACCESS_FS_MAKE_BLOCK, bit 11. -/
def SHIM_LANDLOCK_ACCESS_FS_MAKE_BLOCK : Nat := 1 <<< 11

/-- SHIM_LANDLOCK_ACCESS_FS_MAKE_SYM, bit 12. -/
def SHIM_LANDLOCK_ACCESS_FS_MAKE_SYM : Nat := 1 <<< 12

/-- SHIM_LANDLOCK_ACCESS_ALL, the bitwise or of the thirteen atomic flags. -/
def SHIM_LANDLOCK_ACCESS_ALL : Nat :=
  SHIM_LANDLOCK_ACCESS_FS_EXECUTE |||
  SHIM_LANDLOCK_ACCESS_FS_WRITE_FILE |||
  SHIM_LANDLOCK_ACCESS_FS_READ_FILE |||
  SHIM_LANDLOCK_ACCESS_FS_READ_DIR |||
  SHIM_LANDLOCK_ACCESS_FS_REMOVE_DIR |||
  SHIM_LANDLOCK_ACCESS_FS_REMOVE_FILE |||
  SHIM_LANDLOCK_ACCESS_FS_MAKE_CHAR |||
  SHIM_LANDLOCK_ACCESS_FS_MAKE_DIR |||
  SHIM_LANDLOCK_ACCESS_FS_MAKE_REG |||
  SHIM_LANDLOCK_ACCESS_FS_MAKE_SOCK |||
  SHIM_LANDLOCK_ACCESS_FS_MAKE_FIFO |||
  SHIM_LANDLOCK_ACCESS_FS_MAKE_BLOCK |||
  SHIM_LANDLOCK_ACCESS_FS_MAKE_SYM

/-- Observable outcome of one fork/wait round in stress_landlock_test:
either the fork failed and the external retry policy gave up, or the
blocking wait was interrupted by a signal (EINTR), or the child exited
normally with some status (WIFEXITED true), or the child was terminated
abnormally, e.g. killed by a signal (WIFEXITED false). -/
inductive WaitOutcome where
  | forkFail : WaitOutcome
  | interrupted : WaitOutcome
  | exited : Nat → WaitOutcome
  | signaled : WaitOutcome
deriving DecidableEq

/-- Observable effect of one stress_landlock_test call on the driver:
the failure counter after the call, and whether the ephemeral test file
was unlinked before the call returned. -/
structure TestResult where
  failures : Nat
  unlinked : Bool
deriving DecidableEq

/-- Model of stress_landlock_test (stress-landlock.c lines 298-337): fork a
child, wait for it, increment the failure counter exactly when the child
exited normally with a non-zero status, and unlink the ephemeral file on the
wait-related paths.  On the fork-failure path (stress_redo_fork gave up) the
function returns immediately, without touching the file. -/
def stress_landlock_test (outcome : WaitOutcome) (failures : Nat) : TestResult :=
  match outcome with
  | .forkFail => { failures := failures, unlinked := false }
  | .interrupted => { failures := failures, unlinked := true }
  | .exited status =>
      { failures := if status = EXIT_SUCCESS then failures else failures + 1,
        unlinked := true }
  | .signaled => { failures := failures, unlinked := true }

/-- Success/failure environment for one run of the per-test child
stress_landlock_flag: whether each fallible step (ruleset creation, anchor
open of the temp directory, rule attachment, prctl, self-restriction)
succeeds. -/
structure FlagEnv where
  createRulesetOk : Bool
  openParentOk : Bool
  addRuleOk : Bool
  prctlOk : Bool
  restrictOk : Bool
deriving DecidableEq

/-- Observable effect of one run of stress_landlock_flag: the returned exit
code, the 64-bit allowed-access value written into the path-beneath rule
attribute (none when the ruleset creation failed before the store), whether
the three sanity opens of the ephemeral file were performed, and whether the
child unlinked the ephemeral file itself. -/
structure FlagResult where
  rc : Nat
  allowedAccess : Option Nat
  opensDone : Bool
  unlinkDone : Bool
deriving DecidableEq

/-- Model of stress_landlock_flag (stress-landlock.c lines 230-296), the
procedure run inside each forked test child.  rc is initialised to
EXIT_SUCCESS and never modified; ruleset-creation failure returns 0
directly; each later failure jumps to the descriptor-closing epilogue and
returns rc.  Only when every step up to and including restrictSelf succeeds
does control reach the three sanity opens and the unlink of the ephemeral
file.  The flag argument is the uint32_t ctxt->flag; its store into the
64-bit allowed_access field is a plain zero-extending copy. -/
def stress_landlock_flag (flag : Nat) (env : FlagEnv) : FlagResult :=
  if env.createRulesetOk = false then
    { rc := 0, allowedAccess := none, opensDone := false, unlinkDone := false }
  else if env.openParentOk = false then
    { rc := EXIT_SUCCESS, allowedAccess := some flag, opensDone := false, unlinkDone := false }
  else if env.addRuleOk = false then
    { rc := EXIT_SUCCESS, allowedAccess := some flag, opensDone := false, unlinkDone := false }
  else if env.prctlOk = false then
    { rc := EXIT_SUCCESS, allowedAccess := some flag, opensDone := false, unlinkDone := false }
  else if env.restrictOk = false then
    { rc := EXIT_SUCCESS, allowedAccess := some flag, opensDone := false, unlinkDone := false }
  else
    { rc := EXIT_SUCCESS, allowedAccess := some flag, opensDone := true, unlinkDone := true }

/-- Environment in which the rule was attached and no-new-privileges was
set, but restrictSelf failed. -/
def envRestrictFail : FlagEnv :=
  { createRulesetOk := true, openParentOk := true, addRuleOk := true,
    prctlOk := true, restrictOk := false }

/-- C2 counterexample: a child terminated abnormally (killed by a signal,
WIFEXITED false) is not counted as a failure: with the counter at 3, the
claim says the counter becomes 4, but stress_landlock_test leaves it at 3. -/
theorem C2_signaled_not_counted :
    ¬ ((stress_landlock_test WaitOutcome.signaled 3).failures = 3 + 1) := by
  decide

/-- C2 (amended): the failure counter is incremented exactly when the child
exited normally (WIFEXITED) with a non-zero status; abnormal termination,
an interrupted wait, and fork failure leave the counter unchanged. -/
theorem C2_failure_counting (o : WaitOutcome) (f : Nat) :
    (stress_landlock_test o f).failures =
      match o with
      | .exited status => if status = EXIT_SUCCESS then f else f + 1
      | _ => f := by
  cases o <;> rfl

/-- C3 counterexample: in a run where the rule was attached and
no-new-privileges was set but restrictSelf failed, the three sanity opens
and the unlink of the ephemeral file are skipped (the code jumps straight
to the descriptor-closing epilogue), contradicting the claim that they are
performed regardless of the restrictSelf result. -/
theorem C3_restrict_fail_skips_opens :
    ¬ ((stress_landlock_flag 1 envRestrictFail).opensDone = true ∧
       (stress_landlock_flag 1 envRestrictFail).unlinkDone = true) := by
  decide

/-- C3 (amended): the three sanity opens and the unlink of the ephemeral
file are performed exactly when every step succeeds, i.e. ruleset creation,
anchor open, rule attachment, prctl, and also restrictSelf; a restrictSelf
failure skips them. -/
theorem C3_opens_iff_all_ok (flag : Nat) (env : FlagEnv) :
    (stress_landlock_flag flag env).opensDone =
      (env.createRulesetOk && env.openParentOk && env.addRuleOk &&
       env.prctlOk && env.restrictOk) ∧
    (stress_landlock_flag flag env).unlinkDone =
      (env.createRulesetOk && env.openParentOk && env.addRuleOk &&
       env.prctlOk && env.restrictOk) := by
  obtain ⟨c, o, a, p, r⟩ := env
  cases c <;> cases o <;> cases a <;> cases p <;> cases r <;> exact ⟨rfl, rfl⟩

/-- C4: stress_landlock_flag returns EXIT_SUCCESS (0) on every execution
path, for every flag and every combination of internal step outcomes. -/
theorem C4_always_exit_success (flag : Nat) (env : FlagEnv) :
    (stress_landlock_flag flag env).rc = EXIT_SUCCESS := by
  obtain ⟨c, o, a, p, r⟩ := env
  cases c <;> cases o <;> cases a <;> cases p <;> cases r <;> rfl

/-- C7 counterexample: on the fork-failure return path (the retry policy
gave up), stress_landlock_test returns without unlinking the ephemeral
file, contradicting the claim that the unlink happens on every return
path. -/
theorem C7_forkfail_no_unlink :
    ¬ ((stress_landlock_test WaitOutcome.forkFail 0).unlinked = true) := by
  decide

/-- C7 (amended): the ephemeral file is unlinked on every wait-related
return path of stress_landlock_test (normal exit with any status, abnormal
termination, interrupted wait), but not on the fork-failure path, where the
function returns without touching the file. -/
theorem C7_unlink_paths :
    (∀ f status, (stress_landlock_test (WaitOutcome.exited status) f).unlinked = true) ∧
    (∀ f, (stress_landlock_test WaitOutcome.signaled f).unlinked = true) ∧
    (∀ f, (stress_landlock_test WaitOutcome.interrupted f).unlinked = true) ∧
    (∀ f, (stress_landlock_test WaitOutcome.forkFail f).unlinked = false) := by
  exact ⟨fun f s => rfl, fun f => rfl, fun f => rfl, fun f => rfl⟩

/-- The fixed ordered flag table of stress_landlock (stress-landlock.c lines
345-361): the atomic flags in bit order, with one combined
WRITE_FILE|READ_FILE entry inserted after READ_FILE, and a terminating 0
entry.  The C loops iterate over SIZEOF_ARRAY of it, i.e. all 15 entries. -/
def landlock_access_flags : List Nat :=
  [SHIM_LANDLOCK_ACCESS_FS_EXECUTE,
   SHIM_LANDLOCK_ACCESS_FS_WRITE_FILE,
   SHIM_LANDLOCK_ACCESS_FS_READ_FILE,
   SHIM_LANDLOCK_ACCESS_FS_WRITE_FILE ||| SHIM_LANDLOCK_ACCESS_FS_READ_FILE,
   SHIM_LANDLOCK_ACCESS_FS_READ_DIR,
   SHIM_LANDLOCK_ACCESS_FS_REMOVE_DIR,
   SHIM_LANDLOCK_ACCESS_FS_REMOVE_FILE,
   SHIM_LANDLOCK_ACCESS_FS_MAKE_CHAR,
   SHIM_LANDLOCK_ACCESS_FS_MAKE_DIR,
   SHIM_LANDLOCK_ACCESS_FS_MAKE_REG,
   SHIM_LANDLOCK_ACCESS_FS_MAKE_SOCK,
   SHIM_LANDLOCK_ACCESS_FS_MAKE_FIFO,
   SHIM_LANDLOCK_ACCESS_FS_MAKE_BLOCK,
   SHIM_LANDLOCK_ACCESS_FS_MAKE_SYM,
   0]

/-- Modelled from the spec wording only, for comparison with the table in
the source: the thirteen atomic access-right flag categories listed in the
specification (execute, write-file, read-file, read-dir, remove-dir,
remove-file, make-char, make-dir, make-reg, make-sock, make-fifo,
make-block, make-sym), each a single bit. -/
def spec_atomic_access_flags : List Nat :=
  [SHIM_LANDLOCK_ACCESS_FS_EXECUTE,
   SHIM_LANDLOCK_ACCESS_FS_WRITE_FILE,
   SHIM_LANDLOCK_ACCESS_FS_READ_FILE,
   SHIM_LANDLOCK_ACCESS_FS_READ_DIR,
   SHIM_LANDLOCK_ACCESS_FS_REMOVE_DIR,
   SHIM_LANDLOCK_ACCESS_FS_REMOVE_FILE,
   SHIM_LANDLOCK_ACCESS_FS_MAKE_CHAR,
   SHIM_LANDLOCK_ACCESS_FS_MAKE_DIR,
   SHIM_LANDLOCK_ACCESS_FS_MAKE_REG,
   SHIM_LANDLOCK_ACCESS_FS_MAKE_SOCK,
   SHIM_LANDLOCK_ACCESS_FS_MAKE_FIFO,
   SHIM_LANDLOCK_ACCESS_FS_MAKE_BLOCK,
   SHIM_LANDLOCK_ACCESS_FS_MAKE_SYM]

/-- The uint32_t store of the bitwise complement in `ctxt.flag = ~ctxt.flag`
(stress-landlock.c line 402): complement of the low 32 bits, stored into a
32-bit field. -/
def complement32 (f : Nat) : Nat := ((2 ^ 32 - 1) ^^^ (f % 2 ^ 32)) % 2 ^ 32

/-- One dispatched test case of the driver: the uint32_t mask handed to the
child, and the failure counter of the driver immediately before and immediately
after the stress_landlock_test call. -/
structure Dispatch where
  flag : Nat
  failuresBefore : Nat
  failuresAfter : Nat
deriving DecidableEq

/-- Result of running one for-loop of the driver over a list of table
entries: the dispatches performed, the final ctxt.flag, the final failure
counter, the next oracle tick, and whether the `failures >= 5` check fired
(goto err). -/
structure EntriesResult where
  dispatches : List Dispatch
  flag : Nat
  failures : Nat
  tick : Nat
  aborted : Bool
deriving DecidableEq

/-- Model of one driver for-loop over the flag table (stress-landlock.c
lines 390-395 with cum = true, lines 396-401 with cum = false): each step
either ORs the entry into ctxt.flag (cumulative pass) or overwrites
ctxt.flag with the entry (isolated pass), stores it as uint32_t, dispatches
stress_landlock_test with the wait outcome given by the oracle at the
current tick, and aborts the loop as soon as the failure counter reaches
5.  The oracle tick counts dispatches globally. -/
def runEntries (oracle : Nat → WaitOutcome) (cum : Bool) :
    List Nat → Nat → Nat → Nat → EntriesResult
  | [], flag, fails, tick =>
      { dispatches := [], flag := flag, failures := fails, tick := tick, aborted := false }
  | e :: es, flag, fails, tick =>
      let flag2 := (if cum then flag ||| e else e) % 2 ^ 32
      let fails2 := (stress_landlock_test (oracle tick) fails).failures
      let d : Dispatch := { flag := flag2, failuresBefore := fails, failuresAfter := fails2 }
      if 5 ≤ fails2 then
        { dispatches := [d], flag := flag2, failures := fails2, tick := tick + 1, aborted := true }
      else
        let r := runEntries oracle cum es flag2 fails2 (tick + 1)
        { dispatches := d :: r.dispatches, flag := r.flag, failures := r.failures,
          tick := r.tick, aborted := r.aborted }

/-- Result of one outer iteration (pass) of the driver loop: the dispatches
of the cumulative phase, of the isolated phase, and of the complement test
(at most one), plus the final ctxt.flag, failure counter, next tick, and
whether this pass hit the failure threshold (goto err). -/
structure PassResult where
  cum : List Dispatch
  iso : List Dispatch
  comp : List Dispatch
  flag : Nat
  failures : Nat
  tick : Nat
  aborted : Bool
deriving DecidableEq

/-- All dispatches of a pass, in program order. -/
def PassResult.dispatches (p : PassResult) : List Dispatch :=
  p.cum ++ p.iso ++ p.comp

/-- Model of one outer iteration of stress_landlock (stress-landlock.c
lines 384-408): ctxt.flag is reset to 0, then the cumulative pass, the
isolated pass, and the complement test run in order, each followed by the
`failures >= 5` abort check.  The failure counter is taken from the caller
and threaded through; it is not reset here. -/
def runPass (oracle : Nat → WaitOutcome) (fails tick : Nat) : PassResult :=
  let r1 := runEntries oracle true landlock_access_flags 0 fails tick
  if r1.aborted then
    { cum := r1.dispatches, iso := [], comp := [], flag := r1.flag,
      failures := r1.failures, tick := r1.tick, aborted := true }
  else
    let r2 := runEntries oracle false landlock_access_flags r1.flag r1.failures r1.tick
    if r2.aborted then
      { cum := r1.dispatches, iso := r2.dispatches, comp := [], flag := r2.flag,
        failures := r2.failures, tick := r2.tick, aborted := true }
    else
      let flag3 := complement32 r2.flag
      let fails3 := (stress_landlock_test (oracle r2.tick) r2.failures).failures
      { cum := r1.dispatches, iso := r2.dispatches,
        comp := [{ flag := flag3, failuresBefore := r2.failures, failuresAfter := fails3 }],
        flag := flag3, failures := fails3, tick := r2.tick + 1,
        aborted := decide (5 ≤ fails3) }

/-- Model of the driver loop of stress_landlock (stress-landlock.c lines
363-408): `failures` is initialised by the caller (0 in the real run, line
363, before the loop) and threaded from pass to pass without being reset;
`iters` bounds how many outer iterations stress_continue allows; a pass
that hits the failure threshold ends the run (goto err). -/
def runDriver (oracle : Nat → WaitOutcome) : Nat → Nat → Nat → List PassResult
  | 0, _, _ => []
  | iters + 1, fails, tick =>
      let p := runPass oracle fails tick
      if p.aborted then [p]
      else p :: runDriver oracle iters p.failures p.tick

/-- Chained f ds g: the failure counter is threaded through the dispatch
list ds without ever being reset: the first dispatch reads f, every later
dispatch reads exactly the counter left by the previous one, and the last
leaves g. -/
def Chained : Nat → List Dispatch → Nat → Prop
  | f, [], g => f = g
  | f, d :: ds, g => d.failuresBefore = f ∧ Chained d.failuresAfter ds g

theorem Chained.append :
    ∀ {xs : List Dispatch} {f g : Nat}, Chained f xs g →
      ∀ {ys : List Dispatch} {h : Nat}, Chained g ys h → Chained f (xs ++ ys) h := by
  intro xs
  induction xs with
  | nil =>
      intro f g hfg ys h hyh
      have he : f = g := hfg
      subst he
      simpa using hyh
  | cons d ds ih =>
      intro f g hfg ys h hyh
      exact ⟨hfg.1, ih hfg.2 hyh⟩

theorem runEntries_chained (oracle : Nat → WaitOutcome) (cum : Bool) :
    ∀ (es : List Nat) (flag fails tick : Nat),
      Chained fails (runEntries oracle cum es flag fails tick).dispatches
        (runEntries oracle cum es flag fails tick).failures := by
  intro es
  induction es with
  | nil =>
      intro flag fails tick
      simp [runEntries, Chained]
  | cons e es ih =>
      intro flag fails tick
      simp only [runEntries]
      split
      · exact ⟨rfl, rfl⟩
      · exact ⟨rfl, ih _ _ _⟩

theorem runPass_chained (oracle : Nat → WaitOutcome) (fails tick : Nat) :
    Chained fails (runPass oracle fails tick).dispatches
      (runPass oracle fails tick).failures := by
  have h1 := runEntries_chained oracle true landlock_access_flags 0 fails tick
  have h2 := runEntries_chained oracle false landlock_access_flags
    (runEntries oracle true landlock_access_flags 0 fails tick).flag
    (runEntries oracle true landlock_access_flags 0 fails tick).failures
    (runEntries oracle true landlock_access_flags 0 fails tick).tick
  simp only [runPass, PassResult.dispatches]
  split
  · simpa using h1
  · split
    · simpa using Chained.append h1 h2
    · exact Chained.append (Chained.append h1 h2) ⟨rfl, rfl⟩

theorem runDriver_chained (oracle : Nat → WaitOutcome) :
    ∀ (iters fails tick : Nat),
      ∃ g, Chained fails
        (((runDriver oracle iters fails tick).map PassResult.dispatches).flatten) g := by
  intro iters
  induction iters with
  | zero =>
      intro fails tick
      exact ⟨fails, rfl⟩
  | succ n ih =>
      intro fails tick
      simp only [runDriver]
      split
      · exact ⟨(runPass oracle fails tick).failures,
          by simpa using runPass_chained oracle fails tick⟩
      · obtain ⟨g, hg⟩ := ih (runPass oracle fails tick).failures (runPass oracle fails tick).tick
        exact ⟨g, by simpa using Chained.append (runPass_chained oracle fails tick) hg⟩

/-- Driver run in which the very first test child exits with status 1 and
all later children exit with status 0. -/
def cexOracle : Nat → WaitOutcome :=
  fun t => if t = 0 then WaitOutcome.exited 1 else WaitOutcome.exited 0

/-- C1 counterexample: with the first test child of the run exiting
non-zero and every other child exiting 0, the first pass ends with one
accumulated failure and the second outer pass starts with its failure
counter at 1, not 0: the counter is not reset at the start of every outer
iteration. -/
theorem C1_second_pass_starts_nonzero :
    ¬ (∀ p ∈ runDriver cexOracle 2 0 0,
         p.dispatches.head?.map Dispatch.failuresBefore = some 0) := by
  decide

/-- C1 (amended): the failure counter is initialised once, before the first
outer iteration, and is never reset: across the whole run, the first
dispatch reads the initial counter value and every later dispatch, also
across pass boundaries, reads exactly the counter value left by the
previous dispatch, so a pass following an earlier failure starts with a
non-zero counter. -/
theorem C1_failures_threaded_not_reset (oracle : Nat → WaitOutcome) (iters fails tick : Nat) :
    ∃ g, Chained fails
      (((runDriver oracle iters fails tick).map PassResult.dispatches).flatten) g :=
  runDriver_chained oracle iters fails tick

/-- Oracle under which every test child exits with status 0. -/
def okOracle : Nat → WaitOutcome := fun _ => WaitOutcome.exited 0

/-- Oracle under which every test child exits with status 1. -/
def failOracle : Nat → WaitOutcome := fun _ => WaitOutcome.exited 1

/-- C5 counterexample: the flag table driving both passes has 15 entries,
not 13, and contains the combined WRITE_FILE|READ_FILE mask, which is not
one of the thirteen atomic access-right flags of the specification (it also
contains a terminating 0 entry, which both loops iterate over as well). -/
theorem C5_table_has_nonatomic_entry :
    landlock_access_flags.length = 15 ∧
    (SHIM_LANDLOCK_ACCESS_FS_WRITE_FILE ||| SHIM_LANDLOCK_ACCESS_FS_READ_FILE)
      ∈ landlock_access_flags ∧
    (SHIM_LANDLOCK_ACCESS_FS_WRITE_FILE ||| SHIM_LANDLOCK_ACCESS_FS_READ_FILE)
      ∉ spec_atomic_access_flags ∧
    (0 : Nat) ∈ landlock_access_flags ∧ (0 : Nat) ∉ spec_atomic_access_flags := by
  decide

/-- C5 (amended): the table consists of the thirteen atomic flags in bit
order together with one combined write-file|read-file entry (inserted after
read-file) and a terminating 0 entry, 15 entries in all; every atomic flag
does appear in it, and the isolated pass dispatches each of the 15 table
entries alone, one test per entry, including the combined entry and the 0
entry. -/
theorem C5_table_and_isolated_pass :
    landlock_access_flags =
      [1, 2, 4, 6, 8, 16, 32, 64, 128, 256, 512, 1024, 2048, 4096, 0] ∧
    (∀ f ∈ spec_atomic_access_flags, f ∈ landlock_access_flags) ∧
    (runPass okOracle 0 0).iso.map Dispatch.flag = landlock_access_flags := by
  decide

theorem runEntries_failures_lt (oracle : Nat → WaitOutcome) (cum : Bool) :
    ∀ (es : List Nat) (flag fails tick : Nat), fails < 5 →
      (∀ d ∈ (runEntries oracle cum es flag fails tick).dispatches,
        d.failuresBefore < 5) ∧
      ((runEntries oracle cum es flag fails tick).aborted = false →
        (runEntries oracle cum es flag fails tick).failures < 5) := by
  intro es
  induction es with
  | nil =>
      intro flag fails tick h
      exact ⟨by simp [runEntries], fun _ => h⟩
  | cons e es ih =>
      intro flag fails tick h
      simp only [runEntries]
      split
      · constructor
        · intro d hd
          simp only [List.mem_singleton] at hd
          subst hd
          exact h
        · intro hab
          simp at hab
      · rename_i hlt
        have h2 : (stress_landlock_test (oracle tick) fails).failures < 5 := by
          omega
        constructor
        · intro d hd
          simp only [List.mem_cons] at hd
          rcases hd with hd | hd
          · subst hd; exact h
          · exact (ih _ _ _ h2).1 d hd
        · exact (ih _ _ _ h2).2

theorem runPass_failures_lt (oracle : Nat → WaitOutcome) (fails tick : Nat) (h : fails < 5) :
    (∀ d ∈ (runPass oracle fails tick).dispatches, d.failuresBefore < 5) ∧
    ((runPass oracle fails tick).aborted = false →
      (runPass oracle fails tick).failures < 5) := by
  have h1 := runEntries_failures_lt oracle true landlock_access_flags 0 fails tick h
  simp only [runPass, PassResult.dispatches]
  split
  · rename_i hab1
    refine ⟨?_, ?_⟩
    · intro d hd
      simp only [List.append_nil] at hd
      exact h1.1 d hd
    · intro hc
      simp at hc
  · rename_i hab1
    have hf1 : (runEntries oracle true landlock_access_flags 0 fails tick).failures < 5 :=
      h1.2 (by simpa using hab1)
    have h2 := runEntries_failures_lt oracle false landlock_access_flags
      (runEntries oracle true landlock_access_flags 0 fails tick).flag
      (runEntries oracle true landlock_access_flags 0 fails tick).failures
      (runEntries oracle true landlock_access_flags 0 fails tick).tick hf1
    split
    · rename_i hab2
      refine ⟨?_, ?_⟩
      · intro d hd
        simp only [List.append_nil, List.mem_append] at hd
        rcases hd with hd | hd
        · exact h1.1 d hd
        · exact h2.1 d hd
      · intro hc
        simp at hc
    · rename_i hab2
      have hf2 : (runEntries oracle false landlock_access_flags
          (runEntries oracle true landlock_access_flags 0 fails tick).flag
          (runEntries oracle true landlock_access_flags 0 fails tick).failures
          (runEntries oracle true landlock_access_flags 0 fails tick).tick).failures < 5 :=
        h2.2 (by simpa using hab2)
      refine ⟨?_, ?_⟩
      · intro d hd
        simp only [List.mem_append, List.mem_singleton] at hd
        rcases hd with (hd | hd) | hd
        · exact h1.1 d hd
        · exact h2.1 d hd
        · subst hd; exact hf2
      · intro hc
        simp only [decide_eq_false_iff_not, Nat.not_le] at hc
        exact hc

theorem runDriver_failures_lt (oracle : Nat → WaitOutcome) :
    ∀ (iters fails tick : Nat), fails < 5 →
      ∀ p ∈ runDriver oracle iters fails tick, ∀ d ∈ p.dispatches,
        d.failuresBefore < 5 := by
  intro iters
  induction iters with
  | zero =>
      intro fails tick h p hp
      simp [runDriver] at hp
  | succ n ih =>
      intro fails tick h p hp
      simp only [runDriver] at hp
      split at hp
      · simp only [List.mem_singleton] at hp
        subst hp
        exact (runPass_failures_lt oracle fails tick h).1
      · rename_i hab
        simp only [List.mem_cons] at hp
        rcases hp with hp | hp
        · subst hp
          exact (runPass_failures_lt oracle fails tick h).1
        · have hf : (runPass oracle fails tick).failures < 5 :=
            (runPass_failures_lt oracle fails tick h).2 (by simpa using hab)
          exact ih _ _ hf p hp

/-- C6: once the failure counter reaches the threshold of 5, no further
test case is ever dispatched: after every harness invocation (cumulative
pass, isolated pass, complement test) the driver checks the counter and
aborts the run when it is at least 5, so in a run started with a counter
below 5 every dispatched test case observes a counter strictly below 5. -/
theorem C6_no_dispatch_at_threshold (oracle : Nat → WaitOutcome)
    (iters fails tick : Nat) (h : fails < 5) :
    ∀ p ∈ runDriver oracle iters fails tick, ∀ d ∈ p.dispatches,
      d.failuresBefore < 5 :=
  runDriver_failures_lt oracle iters fails tick h

/-- The single pass produced when every test child exits non-zero: five
dispatches, aborting the cumulative pass at the fifth. -/
def passFail : PassResult := runPass failOracle 0 0

/-- The fifth dispatch of that pass: mask 15, counter 4 before, 5 after. -/
def dispatchFifth : Dispatch := { flag := 15, failuresBefore := 4, failuresAfter := 5 }

/-- C6 witness: concrete instantiation of the threshold theorem on the
all-failing oracle. -/
theorem C6_no_dispatch_witness :
    (0 : Nat) < 5 ∧ passFail ∈ runDriver failOracle 1 0 0 ∧
      dispatchFifth ∈ passFail.dispatches ∧ dispatchFifth.failuresBefore < 5 :=
  ⟨by decide, by decide, by decide,
    C6_no_dispatch_at_threshold failOracle 1 0 0 (by decide) passFail (by decide)
      dispatchFifth (by decide)⟩

theorem runEntries_flag_lt (oracle : Nat → WaitOutcome) (cum : Bool) :
    ∀ (es : List Nat) (flag fails tick : Nat),
      ∀ d ∈ (runEntries oracle cum es flag fails tick).dispatches, d.flag < 2 ^ 32 := by
  intro es
  induction es with
  | nil =>
      intro flag fails tick d hd
      simp [runEntries] at hd
  | cons e es ih =>
      intro flag fails tick d hd
      simp only [runEntries] at hd
      split at hd
      · simp only [List.mem_singleton] at hd
        subst hd
        exact Nat.mod_lt _ (by norm_num)
      · simp only [List.mem_cons] at hd
        rcases hd with hd | hd
        · subst hd
          exact Nat.mod_lt _ (by norm_num)
        · exact ih _ _ _ d hd

theorem runEntries_iso_final_flag (oracle : Nat → WaitOutcome) :
    ∀ (es : List Nat) (flag fails tick : Nat),
      (runEntries oracle false es flag fails tick).aborted = false →
      (runEntries oracle false es flag fails tick).flag =
        List.foldl (fun _ e => e % 2 ^ 32) flag es := by
  intro es
  induction es with
  | nil =>
      intro flag fails tick _
      rfl
  | cons e es ih =>
      intro flag fails tick h
      by_cases hc : 5 ≤ (stress_landlock_test (oracle tick) fails).failures
      · simp [runEntries, if_pos hc] at h
      · simp only [runEntries, if_neg hc, List.foldl_cons]
        exact ih _ _ _ (by simpa [runEntries, if_neg hc] using h)

theorem foldl_table_zero (flag : Nat) :
    List.foldl (fun _ e => e % 2 ^ 32) flag landlock_access_flags = 0 := by
  simp [landlock_access_flags, List.foldl]

theorem runPass_flag_lt (oracle : Nat → WaitOutcome) (fails tick : Nat) :
    ∀ d ∈ (runPass oracle fails tick).dispatches, d.flag < 2 ^ 32 := by
  intro d hd
  simp only [runPass, PassResult.dispatches] at hd
  split at hd
  · simp only [List.append_nil] at hd
    exact runEntries_flag_lt oracle true landlock_access_flags 0 fails tick d hd
  · split at hd
    · simp only [List.append_nil, List.mem_append] at hd
      rcases hd with hd | hd
      · exact runEntries_flag_lt oracle true landlock_access_flags 0 fails tick d hd
      · exact runEntries_flag_lt oracle false landlock_access_flags _ _ _ d hd
    · simp only [List.mem_append, List.mem_singleton] at hd
      rcases hd with (hd | hd) | hd
      · exact runEntries_flag_lt oracle true landlock_access_flags 0 fails tick d hd
      · exact runEntries_flag_lt oracle false landlock_access_flags _ _ _ d hd
      · subst hd
        exact Nat.mod_lt _ (by norm_num)

theorem runPass_comp_flag (oracle : Nat → WaitOutcome) (fails tick : Nat) :
    ∀ d ∈ (runPass oracle fails tick).comp, d.flag = 2 ^ 32 - 1 := by
  intro d hd
  simp only [runPass] at hd
  split at hd
  · simp at hd
  · split at hd
    · simp at hd
    · rename_i hab2
      simp only [List.mem_singleton] at hd
      subst hd
      show complement32 (runEntries oracle false landlock_access_flags
        (runEntries oracle true landlock_access_flags 0 fails tick).flag
        (runEntries oracle true landlock_access_flags 0 fails tick).failures
        (runEntries oracle true landlock_access_flags 0 fails tick).tick).flag = 2 ^ 32 - 1
      rw [runEntries_iso_final_flag oracle landlock_access_flags _ _ _
        (by simpa using hab2), foldl_table_zero]
      decide

theorem runDriver_pass_mem (oracle : Nat → WaitOutcome) (P : PassResult → Prop)
    (hP : ∀ fails tick, P (runPass oracle fails tick)) :
    ∀ (iters fails tick : Nat), ∀ p ∈ runDriver oracle iters fails tick, P p := by
  intro iters
  induction iters with
  | zero =>
      intro fails tick p hp
      simp [runDriver] at hp
  | succ n ih =>
      intro fails tick p hp
      simp only [runDriver] at hp
      split at hp
      · simp only [List.mem_singleton] at hp
        subst hp
        exact hP fails tick
      · simp only [List.mem_cons] at hp
        rcases hp with hp | hp
        · subst hp
          exact hP fails tick
        · exact ih _ _ p hp

theorem stress_landlock_flag_allowed_eq (flag : Nat) (env : FlagEnv) :
    ∀ a ∈ (stress_landlock_flag flag env).allowedAccess, a = flag := by
  obtain ⟨c, op, ar, pc, rs⟩ := env
  cases c <;> cases op <;> cases ar <;> cases pc <;> cases rs <;>
    simp [stress_landlock_flag]

/-- C10: the candidate access mask is a 32-bit field: every dispatched mask
is strictly below 2^32, the 64-bit allowed-access value the test child
stores into the path-beneath rule attribute equals that mask and therefore
has its upper 32 bits zero, and the complement test always runs the 32-bit
complement of the terminating 0 entry of the table, i.e. mask 2^32 - 1 =
0xFFFFFFFF. -/
theorem C10_masks_are_32bit (oracle : Nat → WaitOutcome)
    (iters fails tick : Nat) (env : FlagEnv) :
    (∀ p ∈ runDriver oracle iters fails tick, ∀ d ∈ p.dispatches,
      d.flag < 2 ^ 32 ∧
      ∀ a ∈ (stress_landlock_flag d.flag env).allowedAccess, a < 2 ^ 32) ∧
    (∀ p ∈ runDriver oracle iters fails tick, ∀ d ∈ p.comp,
      d.flag = 2 ^ 32 - 1) := by
  constructor
  · intro p hp d hd
    have hflag : d.flag < 2 ^ 32 :=
      runDriver_pass_mem oracle
        (fun q => ∀ d ∈ q.dispatches, d.flag < 2 ^ 32)
        (fun f t => runPass_flag_lt oracle f t) iters fails tick p hp d hd
    refine ⟨hflag, ?_⟩
    intro a ha
    rw [stress_landlock_flag_allowed_eq d.flag env a ha]
    exact hflag
  · intro p hp
    exact runDriver_pass_mem oracle
      (fun q => ∀ d ∈ q.comp, d.flag = 2 ^ 32 - 1)
      (fun f t => runPass_comp_flag oracle f t) iters fails tick p hp

/-- The single pass of a one-iteration run in which every child exits 0. -/
def passOk : PassResult := runPass okOracle 0 0

/-- The complement-test dispatch of that pass. -/
def dispatchComp : Dispatch := { flag := 2 ^ 32 - 1, failuresBefore := 0, failuresAfter := 0 }

/-- Environment in which every step of the test child succeeds. -/
def envAllOk : FlagEnv :=
  { createRulesetOk := true, openParentOk := true, addRuleOk := true,
    prctlOk := true, restrictOk := true }

/-- C10 witness: concrete instantiation on the all-success oracle, at the
complement-test dispatch. -/
theorem C10_masks_witness :
    passOk ∈ runDriver okOracle 1 0 0 ∧ dispatchComp ∈ passOk.dispatches ∧
      dispatchComp ∈ passOk.comp ∧
      (dispatchComp.flag < 2 ^ 32 ∧
        ∀ a ∈ (stress_landlock_flag dispatchComp.flag envAllOk).allowedAccess,
          a < 2 ^ 32) ∧
      dispatchComp.flag = 2 ^ 32 - 1 :=
  ⟨by decide, by decide, by decide,
    (C10_masks_are_32bit okOracle 1 0 0 envAllOk).1 passOk (by decide)
      dispatchComp (by decide),
    (C10_masks_are_32bit okOracle 1 0 0 envAllOk).2 passOk (by decide)
      dispatchComp (by decide)⟩

/-- Node of a directory tree as seen through one dirent: a regular file or
symbolic link (DT_REG or DT_LNK, the Bool marking the link case), a
directory with its entries (DT_DIR), or an entry of any other type. -/
inductive FsNode where
  | file : String → Bool → FsNode
  | dir : String → List FsNode → FsNode
  | other : String → FsNode

/-- Name of a directory entry. -/
def FsNode.name : FsNode → String
  | .file n _ => n
  | .dir n _ => n
  | .other n => n

/-- Naive path join performed by stress_landlock_many (stress-landlock.c
lines 187-190): path/name in general, with the root spelled without a
double slash. -/
def joinPath (path name : String) : String :=
  if path = "/" then "/" ++ name else path ++ "/" ++ name

/-- Filesystem/kernel environment of the enumerator: whether ruleset
creation succeeds at a given directory, the canonical real path of a path
(none when realpath fails), and whether the anchor open and the rule
attachment succeed for a given resolved path. -/
structure ManyEnv where
  createOk : String → Bool
  realpath : String → Option String
  openOk : String → Bool
  addOk : String → Bool

/-- Observable action of the enumerator: a recursive call into a directory
at a given depth, an anchor-descriptor open, a rule attachment, or the
skipping of an entry whose real path did not match the naive join. -/
inductive ManyEvent where
  | enterDir : String → Nat → ManyEvent
  | openAnchor : String → ManyEvent
  | addRule : String → ManyEvent
  | skipEntry : String → ManyEvent
deriving DecidableEq

/-- The entry loop of stress_landlock_many (stress-landlock.c lines
184-222) over the listed entries of the directory at path: each entry is
joined to the path, checked against its canonical real path (skip on
failure or mismatch), then regular files and symlinks get an anchor open
and a read-file rule (any failure aborts the remaining entries of this
directory, goto close_ruleset), and subdirectories are recursed into only
when depth < 30, the recursive call first re-creating a ruleset (the entry
check of the callee).  The C code passes the resolved path to open and to
the recursive call; in the processed branch it is string-equal to the
naive join, which is what this definition uses. -/
def manyLoop (env : ManyEnv) : String → Nat → List FsNode → List ManyEvent
  | _, _, [] => []
  | path, depth, e :: es =>
    let newpath := joinPath path e.name
    match env.realpath newpath with
    | none => ManyEvent.skipEntry newpath :: manyLoop env path depth es
    | some resolved =>
      if resolved = newpath then
        match e with
        | .file _ _ =>
            if env.openOk newpath then
              ManyEvent.openAnchor newpath ::
                (if env.addOk newpath then
                  ManyEvent.addRule newpath :: manyLoop env path depth es
                 else [])
            else []
        | .dir _ sub =>
            (if depth < 30 then
              ManyEvent.enterDir newpath (depth + 1) ::
                (if env.createOk newpath then manyLoop env newpath (depth + 1) sub
                 else [])
             else []) ++ manyLoop env path depth es
        | .other _ => manyLoop env path depth es
      else
        ManyEvent.skipEntry newpath :: manyLoop env path depth es

/-- Model of stress_landlock_many (stress-landlock.c lines 166-228) on the
directory at path holding the given entries: create the full-superset
ruleset (return silently on failure), then process the entries. -/
def stress_landlock_many (env : ManyEnv) (path : String) (depth : Nat)
    (entries : List FsNode) : List ManyEvent :=
  if env.createOk path then manyLoop env path depth entries else []

theorem manyLoop_enterDir_le (env : ManyEnv) :
    ∀ (path : String) (depth : Nat) (l : List FsNode), depth ≤ 30 →
      ∀ ev ∈ manyLoop env path depth l, ∀ p d, ev = ManyEvent.enterDir p d → d ≤ 30 := by
  intro path depth l
  induction path, depth, l using manyLoop.induct env with
  | case1 x x1 =>
      intro _ ev hev
      simp [manyLoop] at hev
  | case2 path depth e es np hnone ih =>
      intro hdep ev hev p d hevd
      subst hevd
      rw [show np = joinPath path e.name from rfl] at hnone
      cases e <;>
        (simp only [FsNode.name] at hnone;
         simp [manyLoop, FsNode.name, hnone] at hev;
         exact ih hdep _ hev p d rfl)
  | case3 path depth es n a np hopen hres ih =>
      intro hdep ev hev p d hevd
      subst hevd
      rw [show np = joinPath path (FsNode.file n a).name from rfl] at hopen hres
      simp only [FsNode.name] at hopen hres
      simp [manyLoop, FsNode.name, hres, hopen] at hev
      exact ih hdep _ hev.2 p d rfl
  | case4 path depth es n a np hopen hres =>
      intro hdep ev hev p d hevd
      subst hevd
      rw [show np = joinPath path (FsNode.file n a).name from rfl] at hopen hres
      simp only [FsNode.name] at hopen hres
      simp [manyLoop, FsNode.name, hres, hopen] at hev
  | case5 path depth es n a np hres ih1 ih2 =>
      intro hdep ev hev p d hevd
      subst hevd
      rw [show np = joinPath path (FsNode.dir n a).name from rfl] at hres
      simp only [FsNode.name] at hres
      simp [manyLoop, FsNode.name, hres] at hev
      rcases hev with h | h
      · obtain ⟨hd30, h⟩ := h
        rcases h with ⟨hp, hd⟩ | ⟨hc, h⟩
        · omega
        · exact ih1 (by omega) _ h p d rfl
      · exact ih2 hdep _ h p d rfl
  | case6 path depth es n np hres ih =>
      intro hdep ev hev p d hevd
      subst hevd
      rw [show np = joinPath path (FsNode.other n).name from rfl] at hres
      simp only [FsNode.name] at hres
      simp [manyLoop, FsNode.name, hres] at hev
      exact ih hdep _ hev p d rfl
  | case7 path depth e es np resolved hres hne ih =>
      intro hdep ev hev p d hevd
      subst hevd
      rw [show np = joinPath path e.name from rfl] at hres hne
      cases e <;>
        (simp only [FsNode.name] at hres hne;
         simp [manyLoop, FsNode.name, hres, hne] at hev;
         exact ih hdep _ hev p d rfl)

theorem manyLoop_event_resolved (env : ManyEnv) :
    ∀ (path : String) (depth : Nat) (l : List FsNode), ∀ ev ∈ manyLoop env path depth l,
      (∀ q, ev = ManyEvent.openAnchor q → env.realpath q = some q) ∧
      (∀ q, ev = ManyEvent.addRule q → env.realpath q = some q) ∧
      (∀ q d, ev = ManyEvent.enterDir q d → env.realpath q = some q) := by
  intro path depth l
  induction path, depth, l using manyLoop.induct env with
  | case1 x x1 =>
      intro ev hev
      simp [manyLoop] at hev
  | case2 path depth e es np hnone ih =>
      intro ev hev
      rw [show np = joinPath path e.name from rfl] at hnone
      cases e <;>
        (simp only [FsNode.name] at hnone;
         simp [manyLoop, FsNode.name, hnone] at hev;
         rcases hev with hev | hev;
         · subst hev
           exact ⟨fun q h => by simp at h, fun q h => by simp at h,
             fun q d h => by simp at h⟩
         · exact ih _ hev)
  | case3 path depth es n a np hopen hres ih =>
      intro ev hev
      rw [show np = joinPath path (FsNode.file n a).name from rfl] at hopen hres
      simp only [FsNode.name] at hopen hres
      simp [manyLoop, FsNode.name, hres, hopen] at hev
      rcases hev with hev | ⟨hadd, hev⟩
      · subst hev
        refine ⟨fun q h => ?_, fun q h => by simp at h, fun q d h => by simp at h⟩
        injection h with h2
        subst h2
        exact hres
      · rcases hev with hev | hev
        · subst hev
          refine ⟨fun q h => by simp at h, fun q h => ?_, fun q d h => by simp at h⟩
          injection h with h2
          subst h2
          exact hres
        · exact ih _ hev
  | case4 path depth es n a np hopen hres =>
      intro ev hev
      rw [show np = joinPath path (FsNode.file n a).name from rfl] at hopen hres
      simp only [FsNode.name] at hopen hres
      simp [manyLoop, FsNode.name, hres, hopen] at hev
  | case5 path depth es n a np hres ih1 ih2 =>
      intro ev hev
      rw [show np = joinPath path (FsNode.dir n a).name from rfl] at hres
      simp only [FsNode.name] at hres
      simp [manyLoop, FsNode.name, hres] at hev
      rcases hev with ⟨hd30, hev⟩ | hev
      · rcases hev with hev | ⟨hc, hev⟩
        · subst hev
          refine ⟨fun q h => by simp at h, fun q h => by simp at h,
            fun q d h => ?_⟩
          injection h with h2 h3
          subst h2
          exact hres
        · exact ih1 _ hev
      · exact ih2 _ hev
  | case6 path depth es n np hres ih =>
      intro ev hev
      rw [show np = joinPath path (FsNode.other n).name from rfl] at hres
      simp only [FsNode.name] at hres
      simp [manyLoop, FsNode.name, hres] at hev
      exact ih _ hev
  | case7 path depth e es np resolved hres hne ih =>
      intro ev hev
      rw [show np = joinPath path e.name from rfl] at hres hne
      cases e <;>
        (simp only [FsNode.name] at hres hne;
         simp [manyLoop, FsNode.name, hres, hne] at hev;
         rcases hev with hev | hev;
         · subst hev
           exact ⟨fun q h => by simp at h, fun q h => by simp at h,
             fun q d h => by simp at h⟩
         · exact ih _ hev)

/-- Depths of the recursive directory entries in an event trace. -/
def enterDepths (evs : List ManyEvent) : List Nat :=
  evs.filterMap fun ev =>
    match ev with
    | .enterDir _ d => some d
    | _ => none

/-- Synthetic directory chain: chain k is a tree of k+1 nested directories,
all named d, so the tree rooted at the listing [chain k] has directories at
depths 1 through k+1. -/
def chain : Nat → FsNode
  | 0 => FsNode.dir "d" []
  | k + 1 => FsNode.dir "d" [chain k]

/-- Enumerator environment in which every operation succeeds and every path
resolves to itself. -/
def okEnvMany : ManyEnv :=
  { createOk := fun _ => true, realpath := fun p => some p,
    openOk := fun _ => true, addOk := fun _ => true }

theorem manyLoop_chain_cons (path : String) (depth : Nat) (h : depth < 30)
    (sub : List FsNode) :
    manyLoop okEnvMany path depth [FsNode.dir "d" sub] =
      ManyEvent.enterDir (joinPath path "d") (depth + 1) ::
        manyLoop okEnvMany (joinPath path "d") (depth + 1) sub := by
  simp [manyLoop, okEnvMany, FsNode.name, h]

theorem manyLoop_chain_deep (path : String) (depth : Nat) (h : ¬ depth < 30) :
    ∀ k, manyLoop okEnvMany path depth [chain k] = [] := by
  intro k
  cases k with
  | zero => simp [chain, manyLoop, okEnvMany, FsNode.name, h]
  | succ k => simp [chain, manyLoop, okEnvMany, FsNode.name, h]

theorem enterDepths_cons_enter (q : String) (d : Nat) (l : List ManyEvent) :
    enterDepths (ManyEvent.enterDir q d :: l) = d :: enterDepths l := by
  simp [enterDepths]

theorem chain_enterDepths :
    ∀ (k : Nat) (path : String) (depth : Nat), depth < 30 →
      enterDepths (manyLoop okEnvMany path depth [chain k]) =
        List.range' (depth + 1) (min (k + 1) (30 - depth)) := by
  intro k
  induction k with
  | zero =>
      intro path depth h
      rw [show chain 0 = FsNode.dir "d" [] from rfl, manyLoop_chain_cons path depth h,
        enterDepths_cons_enter]
      rw [show manyLoop okEnvMany (joinPath path "d") (depth + 1) [] = [] from by
        simp [manyLoop]]
      have hm : min (0 + 1) (30 - depth) = 1 := by omega
      rw [hm]
      rfl
  | succ k ih =>
      intro path depth h
      rw [show chain (k + 1) = FsNode.dir "d" [chain k] from rfl,
        manyLoop_chain_cons path depth h, enterDepths_cons_enter]
      by_cases h2 : depth + 1 < 30
      · rw [ih (joinPath path "d") (depth + 1) h2]
        have hm : min (k + 1 + 1) (30 - depth) = min (k + 1) (30 - (depth + 1)) + 1 := by
          omega
        rw [hm, List.range'_succ]
      · rw [manyLoop_chain_deep (joinPath path "d") (depth + 1) h2 k]
        have hm : min (k + 1 + 1) (30 - depth) = 1 := by omega
        rw [hm, List.range'_succ]
        rfl

/-- C8: the recursive enumerator recursion depth is hard-capped: in any
traversal started at the root with depth 0, every recursive call into a
subdirectory runs at depth at most 30 (a directory at depth d recurses only
when d < 30, the callee running at depth d + 1); a synthetic chain of 29
nested directories (shallower than the cap) is walked fully, one recursive
call per level at depths 1 through 29, while a chain of 99 nested
directories is walked down to exactly depth 30 and no further. -/
theorem C8_recursion_depth_capped :
    (∀ (env : ManyEnv) (entries : List FsNode) (ev : ManyEvent),
      ev ∈ stress_landlock_many env "/" 0 entries →
      ∀ p d, ev = ManyEvent.enterDir p d → d ≤ 30) ∧
    enterDepths (stress_landlock_many okEnvMany "/" 0 [chain 28]) = List.range' 1 29 ∧
    enterDepths (stress_landlock_many okEnvMany "/" 0 [chain 98]) = List.range' 1 30 := by
  have hsm : ∀ l, stress_landlock_many okEnvMany "/" 0 l = manyLoop okEnvMany "/" 0 l := by
    intro l
    simp [stress_landlock_many, okEnvMany]
  refine ⟨?_, ?_, ?_⟩
  · intro env entries ev hev p d hevd
    simp only [stress_landlock_many] at hev
    split at hev
    · exact manyLoop_enterDir_le env "/" 0 entries (by omega) ev hev p d hevd
    · simp at hev
  · rw [hsm, chain_enterDepths 28 "/" 0 (by omega)]
    have hm : min (28 + 1) (30 - 0) = 29 := by omega
    rw [hm]
  · rw [hsm, chain_enterDepths 98 "/" 0 (by omega)]
    have hm : min (98 + 1) (30 - 0) = 30 := by omega
    rw [hm]

/-- C8 witness: concrete instantiation of the depth bound at the recursive
call into a single subdirectory of the root. -/
theorem C8_recursion_depth_witness :
    ManyEvent.enterDir (joinPath "/" "d") 1 ∈
      stress_landlock_many okEnvMany "/" 0 [FsNode.dir "d" []] ∧ (1 : Nat) ≤ 30 := by
  have hmem : ManyEvent.enterDir (joinPath "/" "d") 1 ∈
      stress_landlock_many okEnvMany "/" 0 [FsNode.dir "d" []] := by
    rw [show stress_landlock_many okEnvMany "/" 0 [FsNode.dir "d" []] =
        manyLoop okEnvMany "/" 0 [FsNode.dir "d" []] from by
      simp [stress_landlock_many, okEnvMany]]
    rw [manyLoop_chain_cons "/" 0 (by omega) []]
    exact List.mem_cons_self _ _
  exact ⟨hmem, C8_recursion_depth_capped.1 okEnvMany [FsNode.dir "d" []] _ hmem
    (joinPath "/" "d") 1 rfl⟩

/-- C9: an entry whose canonical real path cannot be resolved or differs
from the naive join of the parent path and the entry name is skipped
entirely: in any traversal, no anchor open, no rule attachment, and no
directory recursion ever happens for a path that does not resolve to
itself. -/
theorem C9_unresolved_entries_skipped (env : ManyEnv) (path : String) (depth : Nat)
    (entries : List FsNode) (p : String) (hp : env.realpath p ≠ some p) :
    ∀ ev ∈ stress_landlock_many env path depth entries,
      ev ≠ ManyEvent.openAnchor p ∧ ev ≠ ManyEvent.addRule p ∧
        ∀ d, ev ≠ ManyEvent.enterDir p d := by
  intro ev hev
  simp only [stress_landlock_many] at hev
  split at hev
  · have h := manyLoop_event_resolved env path depth entries ev hev
    exact ⟨fun hc => hp (h.1 p hc), fun hc => hp (h.2.1 p hc),
      fun d hc => hp (h.2.2 p d hc)⟩
  · simp at hev

/-- Environment in which the joined path of the entry bad fails to resolve
and everything else succeeds. -/
def skipEnv : ManyEnv :=
  { createOk := fun _ => true,
    realpath := fun q => if q = joinPath "/" "bad" then none else some q,
    openOk := fun _ => true, addOk := fun _ => true }

/-- Directory listing holding the unresolvable entry bad and the ordinary
entry good. -/
def skipTree : List FsNode := [FsNode.file "bad" false, FsNode.file "good" false]

/-- C9 witness: concrete instantiation on a two-entry directory where the
entry bad does not resolve: the rule-attachment event of the surviving
entry is not any event for the skipped path. -/
theorem C9_unresolved_skip_witness :
    skipEnv.realpath (joinPath "/" "bad") ≠ some (joinPath "/" "bad") ∧
      ManyEvent.addRule (joinPath "/" "good") ∈
        stress_landlock_many skipEnv "/" 0 skipTree ∧
      (ManyEvent.addRule (joinPath "/" "good") ≠ ManyEvent.openAnchor (joinPath "/" "bad") ∧
        ManyEvent.addRule (joinPath "/" "good") ≠ ManyEvent.addRule (joinPath "/" "bad") ∧
        ∀ d, ManyEvent.addRule (joinPath "/" "good") ≠
          ManyEvent.enterDir (joinPath "/" "bad") d) := by
  have h1 : skipEnv.realpath (joinPath "/" "bad") ≠ some (joinPath "/" "bad") := by
    simp [skipEnv]
  have h2 : ManyEvent.addRule (joinPath "/" "good") ∈
      stress_landlock_many skipEnv "/" 0 skipTree := by
    have hne2 : joinPath "/" "good" ≠ joinPath "/" "bad" := by decide
    simp [stress_landlock_many, skipEnv, skipTree, manyLoop, FsNode.name, hne2]
  exact ⟨h1, h2, C9_unresolved_entries_skipped skipEnv "/" 0 skipTree
    (joinPath "/" "bad") h1 (ManyEvent.addRule (joinPath "/" "good")) h2⟩
